import Mathlib

/-!
Verification of the membership-coordination layer of the go-dcp repository.

The definitions below are shallow embeddings of the Go source:
  * `src/couchbase/membership.go` — self-organizing (couchbase) membership:
    `isAlive`, `isClusterChanged`, `monitor`, `rebalance`, `GetInfo`,
    `membershipChangedListener`;
  * `src/servicediscovery/service_discovery.go` — leader-elected mode:
    `GetAll`, `StartMonitor`'s tick body, `SetInfo`;
  * `src/api/api.go` — the `/status` handler.

Machine integers (Go `int64` nanosecond timestamps, `int` counters) are
modelled as `Int`; none of the embedded computations can overflow 64 bits on
the inputs that occur (timestamps and list lengths).  Go map iteration order
is nondeterministic, so the index document is passed to `monitor` as an
association list in an arbitrary enumeration order.
-/

namespace GoDcp

/-- `membership.Model` — the `(memberNumber, totalMembers)` pair emitted on
the bus. -/
structure Model where
  memberNumber : Int
  totalMembers : Int
deriving DecidableEq, Repr

/-- Modelled from the spec: `membership.Model.IsChanged` lives in the
`membership` package, which is not under `src/`.  The spec says equality of
two models is field-wise and that duplicates (same `(memberNumber,
totalMembers)`) are suppressed, so a new model counts as changed exactly when
there is no previous model or some field differs. -/
def Model.IsChanged (newModel : Model) (old : Option Model) : Bool :=
  match old with
  | none => true
  | some o => decide (newModel ≠ o)

/-- `couchbase.Instance` — an instance record.  `ID` is a `*string` in Go
(absent in the stored JSON, set from the document key when fetched), hence
`Option String` here. -/
structure Instance where
  id : Option String
  heartbeatTime : Int
  clusterJoinTime : Int
deriving DecidableEq, Repr

/-- `_heartbeatToleranceSec` from `membership.go`. -/
def heartbeatToleranceSec : Int := 2

/-- The tolerance converted to nanoseconds exactly as the source writes it:
`_heartbeatToleranceSec*1000*1000*1000`. -/
def heartbeatToleranceNs : Int := heartbeatToleranceSec * 1000 * 1000 * 1000

/-- `cbMembership.isAlive` as written in the source:
`(time.Now().UnixNano() - heartbeatTime) < heartbeatTime + toleranceNs`.
`now` is passed explicitly. -/
def isAlive (now heartbeatTime : Int) : Bool :=
  decide (now - heartbeatTime < heartbeatTime + heartbeatToleranceNs)

/-- The liveness predicate as the spec states it: the record is alive exactly
when `now - heartbeatTime < toleranceNs`.  Written from the spec's words, to
be compared with `isAlive` above. -/
def isAliveSpec (now heartbeatTime : Int) : Bool :=
  decide (now - heartbeatTime < heartbeatToleranceNs)

/-- `cbMembership.isClusterChanged`: lengths differ, or some position holds a
different instance ID. -/
def isClusterChanged (last cur : List Instance) : Bool :=
  if last.length ≠ cur.length then true
  else (last.zip cur).any fun p => decide (p.1.id ≠ p.2.id)

/-- `cbMembership.rebalance`: find self's 1-based position (`selfOrder`) in
`instances`; `none` models the `panic` taken when self is not found, `some`
carries the model emitted on the bus (after which `lastActiveInstances` is
set to `instances`). -/
def rebalance (selfId : String) (instances : List Instance) : Option Model :=
  match instances.findIdx? (fun inst => inst.id == some selfId) with
  | some idx => some ⟨(idx : Int) + 1, (instances.length : Int)⟩
  | none => none

/-- The stable sort in `monitor`: `sort.SliceStable(ids, ...)` orders the ids
by their `clusterJoinTime` in the index map, keeping the enumeration order on
ties.  Insertion sort with a non-strict comparator has exactly these
semantics. -/
def monitorSortPairs (all : List (String × Int)) : List (String × Int) :=
  List.insertionSort (fun p q => p.2 ≤ q.2) all

/-- The sorted id list `ids` built by `monitor` from the index document
`all` (given in map-enumeration order). -/
def monitorIds (all : List (String × Int)) : List String :=
  (monitorSortPairs all).map Prod.fst

/-- Outcome of fetching one referenced instance document in `monitor`. -/
inductive FetchResult where
  | found (heartbeatTime clusterJoinTime : Int)
  | notFound
  | fetchError
  | unmarshalError
deriving DecidableEq, Repr

/-- Outcome of reading and unmarshalling the index document in `monitor`;
`ok` carries the map in enumeration order. -/
inductive IndexRead where
  | ok (all : List (String × Int))
  | getError
  | unmarshalError
deriving DecidableEq, Repr

/-- One goroutine body of `monitor`: fetch the instance document for `id`;
not-found leaves the slot nil, a live record (per `isAlive`) is kept with its
ID set from the key, a dead one is dropped. -/
def fetchAlive (fetch : String → FetchResult) (now : Int) (id : String) :
    Option Instance :=
  match fetch id with
  | .found hb cj => if isAlive now hb then some ⟨some id, hb, cj⟩ else none
  | _ => none

/-- Whether fetching `id` hits the `panic` path of the goroutine in
`monitor` (a get error other than key-not-found, or an unmarshal error). -/
def fetchFailed (fetch : String → FetchResult) (id : String) : Bool :=
  match fetch id with
  | .fetchError => true
  | .unmarshalError => true
  | _ => false

/-- `filteredInstances` as computed by `monitor`: the alive instances, in
sorted id order. -/
def aliveInstances (all : List (String × Int)) (fetch : String → FetchResult)
    (now : Int) : List Instance :=
  (monitorIds all).filterMap (fetchAlive fetch now)

/-- The fields of `cbMembership` that `monitor` reads and writes. -/
structure MembershipState where
  selfId : String
  lastActiveInstances : List Instance
deriving DecidableEq, Repr

/-- Result of one `monitor` cycle.  `skipped` — the cycle returned early
after logging (no emission, no index rewrite, no termination); `panicked` —
the process terminates; `noChange` — the cycle completed and
`isClusterChanged` was false (no emission, no rewrite); `changed` — a model
was emitted on the bus, `lastActiveInstances` became `newLast`, and the index
document was rewritten from it. -/
inductive MonitorResult where
  | skipped
  | panicked
  | noChange
  | changed (emitted : Model) (newLast : List Instance)
deriving DecidableEq, Repr

/-- `cbMembership.monitor`: read the index, sort the ids by join time, fetch
every referenced instance (a failed fetch panics the process), filter the
alive ones, and if the cluster changed run `rebalance` (which panics when
self is absent, else emits) and rewrite the index. -/
def monitor (st : MembershipState) (idx : IndexRead)
    (fetch : String → FetchResult) (now : Int) : MonitorResult :=
  match idx with
  | .getError => .skipped
  | .unmarshalError => .skipped
  | .ok all =>
    if (monitorIds all).any (fetchFailed fetch) then .panicked
    else if isClusterChanged st.lastActiveInstances (aliveInstances all fetch now) then
      match rebalance st.selfId (aliveInstances all fetch now) with
      | none => .panicked
      | some m => .changed m (aliveInstances all fetch now)
    else .noChange

/-- `serviceDiscovery.SetInfo`: build the new model, and when it differs from
the stored one (field-wise, via `Model.IsChanged`) store and emit it.
Returns the stored info and the emitted model, if any. -/
def setInfo (st : Option Model) (memberNumber totalMembers : Int) :
    Option Model × Option Model :=
  let newInfo : Model := ⟨memberNumber, totalMembers⟩
  if newInfo.IsChanged st then (some newInfo, some newInfo) else (st, none)

/-- `serviceDiscovery.GetAll`: collect the follower names (given in map
enumeration order) and sort them with `sort.Strings`. -/
def getAll (enum : List String) : List String :=
  List.insertionSort (fun a b => a ≤ b) enum

/-- The loop body of the leader's monitor tick: the `k`-th follower (0-based)
of `names` is sent `Rebalance(k+2, totalMembers)`. -/
def followerAssignments (names : List String) (totalMembers : Int) :
    List (String × Model) :=
  names.mapIdx fun k name => (name, ⟨(k : Int) + 2, totalMembers⟩)

/-- One tick of `serviceDiscovery.StartMonitor` when `amILeader` holds:
`names := GetAll()`, `totalMembers := len(names)+1`, `SetInfo(1,
totalMembers)`, then `Rebalance(index+2, totalMembers)` per follower.
Returns the `setInfo` outcome and the follower assignments. -/
def leaderMonitorTick (st : Option Model) (enum : List String) :
    (Option Model × Option Model) × List (String × Model) :=
  let names := getAll enum
  let totalMembers : Int := (names.length : Int) + 1
  (setInfo st 1 totalMembers, followerAssignments names totalMembers)

/-- Result of `client.Ping()` as seen by the `/status` handler. -/
inductive PingResult where
  | ok
  | fail (e : String)
deriving DecidableEq, Repr

/-- `api.status`: return the ping error when the ping fails, else a 200
response with body "OK". -/
def status (ping : PingResult) : Except String String :=
  match ping with
  | .fail e => .error e
  | .ok => .ok "OK"

/-- The fields of `cbMembership` that `GetInfo` and
`membershipChangedListener` touch: the cached `info` pointer and the pending
values of the unbuffered `infoChan` (each delivered event spawns one sender
goroutine; a blocked `GetInfo` receives the oldest pending value). -/
structure MembershipInfoState where
  info : Option Model
  chanQueue : List Model
deriving DecidableEq, Repr

/-- `cbMembership.membershipChangedListener`: store the delivered model in
`info`, then send it on `infoChan` from a fresh goroutine. -/
def membershipChangedListener (st : MembershipInfoState) (m : Model) :
    MembershipInfoState :=
  ⟨some m, st.chanQueue ++ [m]⟩

/-- The listener state after a sequence of delivered `MembershipChanged`
events, starting from the initial state (nil `info`, empty channel). -/
def deliverEvents (events : List Model) : MembershipInfoState :=
  events.foldl membershipChangedListener ⟨none, []⟩

/-- How a call to `GetInfo` behaves: return the cached `info` without
touching the channel, receive a pending model from the channel, or block on
the empty channel. -/
inductive GetInfoResult where
  | immediate (m : Model)
  | fromChan (m : Model)
  | blocked
deriving DecidableEq, Repr

/-- `cbMembership.GetInfo`: if `info` is set return it, else receive from
`infoChan` (blocking while it is empty). -/
def getInfo (st : MembershipInfoState) : GetInfoResult :=
  match st.info with
  | some m => .immediate m
  | none =>
    match st.chanQueue with
    | m :: _ => .fromChan m
    | [] => .blocked

instance : IsTotal (String × Int) fun p q => p.2 ≤ q.2 :=
  ⟨fun a b => le_total a.2 b.2⟩

instance : IsTrans (String × Int) fun p q => p.2 ≤ q.2 :=
  ⟨fun _ _ _ hab hbc => le_trans hab hbc⟩

instance : IsAntisymm (String × Int) fun p q => p.2 < q.2 :=
  ⟨fun _ _ h1 h2 => absurd h1 (not_lt.mpr (le_of_lt h2))⟩

/-- `findIdx?` (with start index `i`) returns an index inside the list. -/
theorem findIdx?_lt_length {α : Type} (p : α → Bool) :
    ∀ (l : List α) (i k : Nat), List.findIdx? p l i = some k →
      i ≤ k ∧ k < i + l.length := by
  intro l
  induction l with
  | nil => intro i k h; simp [List.findIdx?] at h
  | cons a t ih =>
    intro i k h
    rw [List.findIdx?_cons] at h
    by_cases hp : p a
    · simp [hp] at h
      simp only [List.length_cons]
      omega
    · simp [hp] at h
      obtain ⟨a, ha, rfl⟩ := h
      have := ih 0 a ha
      simp only [List.length_cons]
      omega

/-- Anything a `changed` monitor cycle emits comes from `rebalance` on the
alive list of a successfully read index: the model holds self's position and
the list length. -/
theorem monitor_changed_inv {st : MembershipState} {idx : IndexRead}
    {fetch : String → FetchResult} {now : Int} {m : Model}
    {newLast : List Instance}
    (h : monitor st idx fetch now = .changed m newLast) :
    ∃ all k, idx = .ok all ∧ newLast = aliveInstances all fetch now ∧
      List.findIdx? (fun inst => inst.id == some st.selfId) newLast = some k ∧
      m = ⟨(k : Int) + 1, (newLast.length : Int)⟩ := by
  cases idx with
  | getError => simp [monitor] at h
  | unmarshalError => simp [monitor] at h
  | ok all =>
    by_cases hf : (monitorIds all).any (fetchFailed fetch) = true
    · simp [monitor, hf] at h
    · by_cases hc :
          isClusterChanged st.lastActiveInstances (aliveInstances all fetch now) = true
      · cases hreb : rebalance st.selfId (aliveInstances all fetch now) with
        | none => simp [monitor, hf, hc, hreb] at h
        | some m0 =>
          simp [monitor, hf, hc, hreb] at h
          obtain ⟨hm, hlast⟩ := h
          subst hlast
          simp only [rebalance] at hreb
          cases hfind : List.findIdx? (fun inst => inst.id == some st.selfId)
              (aliveInstances all fetch now) with
          | none => rw [hfind] at hreb; simp at hreb
          | some k =>
            rw [hfind] at hreb
            simp only [Option.some.injEq] at hreb
            exact ⟨all, k, rfl, rfl, rfl, by rw [← hm, ← hreb]⟩
      · simp [monitor, hf, hc] at h

/-- Every element of `l.mapIdx f` is `f k a` for an index `k < l.length` and
an element `a` of `l`. -/
theorem mem_mapIdx_imp {α β : Type} :
    ∀ (l : List α) (f : Nat → α → β) (b : β), b ∈ l.mapIdx f →
      ∃ k a, k < l.length ∧ a ∈ l ∧ b = f k a := by
  intro l
  induction l with
  | nil => intro f b h; simp [List.mapIdx_nil] at h
  | cons x t ih =>
    intro f b h
    rw [List.mapIdx_cons] at h
    rcases List.mem_cons.mp h with h0 | hmem
    · exact ⟨0, x, Nat.succ_pos _, List.mem_cons_self _ _, h0⟩
    · obtain ⟨k, a, hk, ha, hb⟩ := ih (fun i => f (i + 1)) b hmem
      exact ⟨k + 1, a, by simpa using Nat.succ_lt_succ hk,
        List.mem_cons_of_mem _ ha, hb⟩

/-- CLAIM C1.  The claim states that `isAlive(heartbeatTime)` returns true
iff `now - heartbeatTime < 2s` in nanoseconds.  The source instead compares
against `heartbeatTime + toleranceNs`.  At `now = 15e9`, `heartbeatTime =
10e9` the record is 5 seconds stale, so the spec's predicate says dead, yet
the source's `isAlive` returns true: the code contradicts the spec's (and
its own constant's) clear intent. -/
theorem isAlive_diverges_from_tolerance :
    isAlive 15000000000 10000000000 = true ∧
      isAliveSpec 15000000000 10000000000 = false ∧
      isAlive 15000000000 10000000000 ≠ isAliveSpec 15000000000 10000000000 := by
  refine ⟨by decide, by decide, by decide⟩

/-- CLAIM C9.  The `/status` handler returns the 200 body "OK" exactly when
the ping succeeds; on a failed ping it returns that error, never "OK". -/
theorem status_ok_iff_ping_ok :
    (∀ ping, status ping = .ok "OK" ↔ ping = .ok) ∧
      (∀ e, status (.fail e) = .error e) := by
  constructor
  · intro ping
    cases ping <;> simp [status]
  · intro e
    rfl

/-- CLAIM C2, counterexample.  The claim says every read failure (index or
instance) only skips the cycle with no process termination.  But a failed
instance fetch takes the `panic` branch of the goroutine in `monitor`: with
one referenced instance whose fetch errors, the cycle panics rather than
being skipped. -/
theorem monitor_fetch_error_not_skipped :
    monitor ⟨"a", []⟩ (.ok [("b", 1)]) (fun _ => .fetchError) 0 = .panicked ∧
      MonitorResult.panicked ≠ .skipped := by
  exact ⟨by decide, by decide⟩

/-- CLAIM C2 (amended).  Index read or unmarshal failures are logged and skip
the cycle (no emission, no index rewrite, no termination); a referenced
instance whose fetch fails with anything other than not-found terminates the
process; a not-found instance is treated as absent. -/
theorem monitor_failure_semantics (st : MembershipState)
    (fetch : String → FetchResult) (now : Int) :
    monitor st .getError fetch now = .skipped ∧
    monitor st .unmarshalError fetch now = .skipped ∧
    (∀ all, (monitorIds all).any (fetchFailed fetch) = true →
      monitor st (.ok all) fetch now = .panicked) ∧
    (∀ id, fetch id = .notFound → fetchAlive fetch now id = none) := by
  refine ⟨rfl, rfl, ?_, ?_⟩
  · intro all hf
    simp [monitor, hf]
  · intro id hid
    simp [fetchAlive, hid]

/-- Witness for `monitor_failure_semantics` at a concrete cycle. -/
theorem monitor_failure_semantics_witness :
    monitor ⟨"a", []⟩ (.ok [("b", 1)]) (fun _ => .fetchError) 0 = .panicked :=
  (monitor_failure_semantics ⟨"a", []⟩ (fun _ => .fetchError) 0).2.2.1
    [("b", 1)] (by decide)

/-- CLAIM C4, counterexample.  The claim says a monitor cycle whose alive
list lacks self's ID always panics.  With an empty `lastActiveInstances` and
an index whose only referenced instance record has expired (not-found), the
alive list is empty — self is absent from it — yet `isClusterChanged` is
false, so the cycle ends in `noChange`: no panic. -/
theorem monitor_self_absent_no_panic :
    (∀ inst ∈ aliveInstances [("idx", 100)] (fun _ => .notFound) 0,
      inst.id ≠ some "a") ∧
    monitor ⟨"a", []⟩ (.ok [("idx", 100)]) (fun _ => .notFound) 0 = .noChange ∧
    MonitorResult.noChange ≠ .panicked := by
  exact ⟨by decide, by decide, by decide⟩

/-- CLAIM C4 (amended).  When the cycle completes its reads and the alive
list differs from the last active list, self being absent from the alive
list makes the process panic (so nothing is emitted); when the alive list is
unchanged the cycle ends silently even if self is absent. -/
theorem monitor_self_absent_panics_when_changed (st : MembershipState)
    (all : List (String × Int)) (fetch : String → FetchResult) (now : Int)
    (hfetch : (monitorIds all).any (fetchFailed fetch) = false)
    (hchanged :
      isClusterChanged st.lastActiveInstances (aliveInstances all fetch now) = true)
    (habsent : ∀ inst ∈ aliveInstances all fetch now, inst.id ≠ some st.selfId) :
    monitor st (.ok all) fetch now = .panicked := by
  have hfind : List.findIdx? (fun inst => inst.id == some st.selfId)
      (aliveInstances all fetch now) = none := by
    rw [List.findIdx?_eq_none_iff]
    intro inst hin
    simp only [beq_eq_false_iff_ne]
    exact habsent inst hin
  have hreb : rebalance st.selfId (aliveInstances all fetch now) = none := by
    simp [rebalance, hfind]
  simp [monitor, hfetch, hchanged, hreb]

/-- Witness for `monitor_self_absent_panics_when_changed`: self "a" held the
previous active list, the only alive instance is now "b". -/
theorem monitor_self_absent_panics_witness :
    monitor ⟨"a", [⟨some "a", 0, 1⟩]⟩ (.ok [("b", 2)])
      (fun id => if id = "b" then .found 0 2 else .notFound) 0 = .panicked :=
  monitor_self_absent_panics_when_changed ⟨"a", [⟨some "a", 0, 1⟩]⟩ [("b", 2)]
    (fun id => if id = "b" then .found 0 2 else .notFound) 0
    (by decide) (by decide) (by decide)

/-- CLAIM C5.  Whenever a monitor cycle emits a model, the model's
`memberNumber` is self's 1-based position in the sorted alive-instance list
and `totalMembers` is that list's length. -/
theorem monitor_emits_self_position (st : MembershipState) (idx : IndexRead)
    (fetch : String → FetchResult) (now : Int) (m : Model)
    (newLast : List Instance)
    (h : monitor st idx fetch now = .changed m newLast) :
    (∃ all, idx = .ok all ∧ newLast = aliveInstances all fetch now) ∧
    ∃ k, List.findIdx? (fun inst => inst.id == some st.selfId) newLast = some k ∧
      m.memberNumber = (k : Int) + 1 ∧ m.totalMembers = (newLast.length : Int) := by
  obtain ⟨all, k, hidx, hlast, hfind, hm⟩ := monitor_changed_inv h
  exact ⟨⟨all, hidx, hlast⟩, k, hfind, by rw [hm], by rw [hm]⟩

/-- Witness for `monitor_emits_self_position` at a concrete cycle. -/
theorem monitor_emits_self_position_witness :
    ∃ k, List.findIdx? (fun inst => inst.id == some "x")
        [(⟨some "x", 0, 1⟩ : Instance), ⟨some "y", 0, 2⟩] = some k ∧
      ((⟨1, 2⟩ : Model)).memberNumber = (k : Int) + 1 ∧
      ((⟨1, 2⟩ : Model)).totalMembers =
        (([(⟨some "x", 0, 1⟩ : Instance), ⟨some "y", 0, 2⟩]).length : Int) :=
  (monitor_emits_self_position ⟨"x", []⟩ (.ok [("x", 1), ("y", 2)])
    (fun id => if id = "x" then .found 0 1 else if id = "y" then .found 0 2
      else .notFound) 0 ⟨1, 2⟩ [⟨some "x", 0, 1⟩, ⟨some "y", 0, 2⟩]
    (by decide)).2

/-- CLAIM C6.  Every model emitted on the bus — by the self-organizing
monitor cycle, by the leader's own `SetInfo(1, n+1)` call, and in the
`Rebalance(k+2, n+1)` assignments the leader sends its followers — satisfies
`1 ≤ memberNumber ≤ totalMembers` and `totalMembers ≥ 1`. -/
theorem emitted_models_satisfy_invariant :
    (∀ st idx fetch now m newLast, monitor st idx fetch now = .changed m newLast →
      1 ≤ m.memberNumber ∧ m.memberNumber ≤ m.totalMembers ∧ 1 ≤ m.totalMembers) ∧
    (∀ st enum m, (leaderMonitorTick st enum).1.2 = some m →
      1 ≤ m.memberNumber ∧ m.memberNumber ≤ m.totalMembers ∧ 1 ≤ m.totalMembers) ∧
    (∀ st enum p, p ∈ (leaderMonitorTick st enum).2 →
      1 ≤ p.2.memberNumber ∧ p.2.memberNumber ≤ p.2.totalMembers ∧
        1 ≤ p.2.totalMembers) := by
  refine ⟨?_, ?_, ?_⟩
  · intro st idx fetch now m newLast h
    obtain ⟨all, k, _, _, hfind, hm⟩ := monitor_changed_inv h
    have hk := findIdx?_lt_length _ newLast 0 k hfind
    subst hm
    refine ⟨?_, ?_, ?_⟩ <;> dsimp only <;> omega
  · intro st enum m h
    simp only [leaderMonitorTick, setInfo] at h
    split at h
    · simp only [Option.some.injEq] at h
      subst h
      refine ⟨?_, ?_, ?_⟩ <;> dsimp only <;> omega
    · simp at h
  · intro st enum p h
    simp only [leaderMonitorTick, followerAssignments] at h
    obtain ⟨k, a, hk, _, hp⟩ := mem_mapIdx_imp _ _ _ h
    subst hp
    refine ⟨?_, ?_, ?_⟩ <;> dsimp only <;> omega

/-- Witness for `emitted_models_satisfy_invariant` at a concrete emission. -/
theorem emitted_models_satisfy_invariant_witness :
    1 ≤ ((⟨1, 2⟩ : Model)).memberNumber ∧
      ((⟨1, 2⟩ : Model)).memberNumber ≤ ((⟨1, 2⟩ : Model)).totalMembers ∧
      1 ≤ ((⟨1, 2⟩ : Model)).totalMembers :=
  emitted_models_satisfy_invariant.1 ⟨"x", []⟩ (.ok [("x", 1), ("y", 2)])
    (fun id => if id = "x" then .found 0 1 else if id = "y" then .found 0 2
      else .notFound) 0 ⟨1, 2⟩ [⟨some "x", 0, 1⟩, ⟨some "y", 0, 2⟩]
    (by decide)

/-- CLAIM C3, counterexample.  The ids are sorted with `sort.SliceStable`
over the nondeterministic Go-map enumeration order, so two survivors with
equal `clusterJoinTime` keep whatever enumeration order the map produced:
the same alive set, enumerated in two orders, yields two different survivor
lists (and even two different emitted models). -/
theorem monitor_tie_break_nondeterministic :
    List.Perm [("b", (5 : Int)), ("a", 5)] [("a", 5), ("b", 5)] ∧
    monitorIds [("b", 5), ("a", 5)] = ["b", "a"] ∧
    monitorIds [("a", 5), ("b", 5)] = ["a", "b"] ∧
    monitor ⟨"a", []⟩ (.ok [("b", 5), ("a", 5)]) (fun _ => .found 0 5) 0 ≠
      monitor ⟨"a", []⟩ (.ok [("a", 5), ("b", 5)]) (fun _ => .found 0 5) 0 := by
  exact ⟨by decide, by decide, by decide, by decide⟩

/-- CLAIM C3 (amended).  The survivors are ordered by `clusterJoinTime`
ascending by a stable sort over the index's enumeration order; ties keep
that enumeration order, so the list is a deterministic function of the set
of `(id, clusterJoinTime)` pairs only when the `clusterJoinTime`s are
pairwise distinct. -/
theorem monitor_sort_deterministic_on_distinct_join_times
    (l1 l2 : List (String × Int)) (hperm : l1.Perm l2)
    (hnodup : (l1.map Prod.snd).Nodup) :
    (monitorSortPairs l1).Sorted (fun p q => p.2 ≤ q.2) ∧
    (monitorSortPairs l1).Perm l1 ∧
    monitorSortPairs l1 = monitorSortPairs l2 := by
  have hs1 : (monitorSortPairs l1).Sorted fun p q => p.2 ≤ q.2 :=
    List.sorted_insertionSort _ l1
  have hs2 : (monitorSortPairs l2).Sorted fun p q => p.2 ≤ q.2 :=
    List.sorted_insertionSort _ l2
  have hp1 : (monitorSortPairs l1).Perm l1 := List.perm_insertionSort _ l1
  have hp2 : (monitorSortPairs l2).Perm l2 := List.perm_insertionSort _ l2
  refine ⟨hs1, hp1, ?_⟩
  have hp12 : (monitorSortPairs l1).Perm (monitorSortPairs l2) :=
    (hp1.trans hperm).trans hp2.symm
  have hne1 : (monitorSortPairs l1).Pairwise fun p q => p.2 ≠ q.2 := by
    have hnd : ((monitorSortPairs l1).map Prod.snd).Nodup :=
      ((hp1.map Prod.snd).symm).nodup hnodup
    exact List.pairwise_map.mp hnd
  have hne2 : (monitorSortPairs l2).Pairwise fun p q => p.2 ≠ q.2 := by
    have hnd : ((monitorSortPairs l2).map Prod.snd).Nodup :=
      ((hp2.map Prod.snd).symm).nodup (((hperm.map Prod.snd)).nodup hnodup)
    exact List.pairwise_map.mp hnd
  have hlt1 : (monitorSortPairs l1).Sorted fun p q => p.2 < q.2 :=
    (List.Pairwise.and hs1 hne1).imp fun h => lt_of_le_of_ne h.1 h.2
  have hlt2 : (monitorSortPairs l2).Sorted fun p q => p.2 < q.2 :=
    (List.Pairwise.and hs2 hne2).imp fun h => lt_of_le_of_ne h.1 h.2
  exact List.eq_of_perm_of_sorted hp12 hlt1 hlt2

/-- Witness for `monitor_sort_deterministic_on_distinct_join_times`. -/
theorem monitor_sort_deterministic_witness :
    monitorSortPairs [("a", (1 : Int)), ("b", 2)] =
      monitorSortPairs [("b", (2 : Int)), ("a", 1)] :=
  (monitor_sort_deterministic_on_distinct_join_times
    [("a", 1), ("b", 2)] [("b", 2), ("a", 1)] (by decide) (by decide)).2.2

/-- CLAIM C7, counterexample.  The self-organizing membership only compares
the instance-ID lists (`isClusterChanged`), so when the alive set changes
from {a, b} to {a, c} it re-emits the identical model `(1, 2)` in two
consecutive cycles: duplicates are not suppressed there. -/
theorem monitor_consecutive_duplicate_emission :
    monitor ⟨"a", []⟩ (.ok [("a", 5), ("b", 6)])
        (fun id => if id = "a" then .found 0 5
          else if id = "b" then .found 0 6 else .notFound) 0
      = .changed ⟨1, 2⟩ [⟨some "a", 0, 5⟩, ⟨some "b", 0, 6⟩] ∧
    monitor ⟨"a", [⟨some "a", 0, 5⟩, ⟨some "b", 0, 6⟩]⟩ (.ok [("a", 5), ("c", 7)])
        (fun id => if id = "a" then .found 0 5
          else if id = "c" then .found 0 7 else .notFound) 0
      = .changed ⟨1, 2⟩ [⟨some "a", 0, 5⟩, ⟨some "c", 0, 7⟩] := by
  exact ⟨by decide, by decide⟩

/-- CLAIM C7 (amended).  `SetInfo` suppresses field-wise duplicates of the
stored model; the self-organizing membership suppresses a cycle's emission
only when the alive instance-ID list is unchanged, and may emit consecutive
identical `(memberNumber, totalMembers)` models when the ID list changed. -/
theorem duplicate_suppression_semantics :
    (∀ st mn tm, Model.IsChanged ⟨mn, tm⟩ st = false →
      setInfo st mn tm = (st, none)) ∧
    (∀ m, setInfo (some m) m.memberNumber m.totalMembers = (some m, none)) ∧
    (∀ st all fetch now,
      (monitorIds all).any (fetchFailed fetch) = false →
      isClusterChanged st.lastActiveInstances (aliveInstances all fetch now) = false →
      monitor st (.ok all) fetch now = .noChange) := by
  refine ⟨?_, ?_, ?_⟩
  · intro st mn tm h
    simp [setInfo, h]
  · intro m
    have h : Model.IsChanged ⟨m.memberNumber, m.totalMembers⟩ (some m) = false := by
      simp [Model.IsChanged]
    simp [setInfo, h]
  · intro st all fetch now hf hc
    simp [monitor, hf, hc]

/-- Witness for `duplicate_suppression_semantics`: an unchanged alive list
produces no emission. -/
theorem duplicate_suppression_witness :
    monitor ⟨"a", [⟨some "a", 0, 5⟩]⟩ (.ok [("a", 5)])
      (fun id => if id = "a" then .found 0 5 else .notFound) 0 = .noChange :=
  duplicate_suppression_semantics.2.2 ⟨"a", [⟨some "a", 0, 5⟩]⟩ [("a", 5)]
    (fun id => if id = "a" then .found 0 5 else .notFound) 0
    (by decide) (by decide)

/-- The follower names of the leader tick's assignments are exactly the
sorted name list. -/
theorem followerAssignments_names (names : List String) (t : Int) :
    (followerAssignments names t).map Prod.fst = names := by
  simp only [followerAssignments, List.mapIdx_eq_enum_map, List.map_map]
  conv_rhs => rw [← List.enum_map_snd names]
  exact List.map_congr_left fun p _ => rfl

/-- The member numbers of the leader tick's assignments are `k+2` for `k`
ranging over the follower positions. -/
theorem followerAssignments_memberNumbers (names : List String) (t : Int) :
    (followerAssignments names t).map (fun p => p.2.memberNumber)
      = (List.range names.length).map fun k : Nat => (k : Int) + 2 := by
  simp only [followerAssignments, List.mapIdx_eq_enum_map, List.map_map]
  rw [← List.enum_map_fst names, List.map_map]
  exact List.map_congr_left fun p _ => rfl

/-- `1 :: (2, 3, ..., n+1)` is exactly `(1, 2, ..., n+1)`. -/
theorem range_member_numbers (n : Nat) :
    (1 : Int) :: ((List.range n).map fun k : Nat => (k : Int) + 2)
      = (List.range (n + 1)).map fun k : Nat => (k : Int) + 1 := by
  rw [List.range_succ_eq_map, List.map_cons, List.map_map]
  refine congrArg₂ List.cons (by simp) ?_
  refine List.map_congr_left fun a _ => ?_
  simp only [Function.comp_apply, Nat.succ_eq_add_one]
  push_cast
  ring

/-- The assigned member numbers `1, 2, ..., n+1` are pairwise distinct. -/
theorem member_numbers_nodup (n : Nat) :
    ((1 : Int) :: ((List.range n).map fun k : Nat => (k : Int) + 2)).Nodup := by
  rw [range_member_numbers]
  refine List.Nodup.map ?_ (List.nodup_range (n + 1))
  intro a b hab
  have h : (a : Int) + 1 = (b : Int) + 1 := hab
  omega

/-- CLAIM C8.  On a leader monitor tick over `n` distinct registered
followers: the follower order is the lexicographically sorted name list; the
leader itself takes model `(1, n+1)`; the `k`-th follower (0-based) is sent
`Rebalance(k+2, n+1)`; and the member numbers handed out are exactly
`{1, ..., n+1}`, pairwise distinct, one per distinct member. -/
theorem leader_tick_assigns_distinct_member_numbers (st : Option Model)
    (enum : List String) (hnodup : enum.Nodup) :
    (getAll enum).Sorted (fun a b => a ≤ b) ∧
    (getAll enum).Perm enum ∧
    (∀ m, (leaderMonitorTick st enum).1.2 = some m →
      m = ⟨1, ((getAll enum).length : Int) + 1⟩) ∧
    (leaderMonitorTick st enum).2.map Prod.fst = getAll enum ∧
    ((leaderMonitorTick st enum).2.map Prod.fst).Nodup ∧
    (∀ p ∈ (leaderMonitorTick st enum).2,
      p.2.totalMembers = ((getAll enum).length : Int) + 1) ∧
    (1 : Int) :: (leaderMonitorTick st enum).2.map (fun p => p.2.memberNumber)
      = (List.range ((getAll enum).length + 1)).map (fun k : Nat => (k : Int) + 1) ∧
    ((1 : Int) :: (leaderMonitorTick st enum).2.map fun p => p.2.memberNumber).Nodup := by
  have hassign : (leaderMonitorTick st enum).2
      = followerAssignments (getAll enum) (((getAll enum).length : Int) + 1) := rfl
  have hperm : (getAll enum).Perm enum := List.perm_insertionSort _ enum
  refine ⟨List.sorted_insertionSort _ enum, hperm, ?_, ?_, ?_, ?_, ?_, ?_⟩
  · intro m h
    simp only [leaderMonitorTick, setInfo] at h
    split at h
    · simp only [Option.some.injEq] at h
      exact h.symm
    · simp at h
  · rw [hassign, followerAssignments_names]
  · rw [hassign, followerAssignments_names]
    exact hperm.symm.nodup hnodup
  · intro p hp
    rw [hassign] at hp
    obtain ⟨k, a, hk, _, hpa⟩ := mem_mapIdx_imp _ _ _ hp
    subst hpa
    rfl
  · rw [hassign, followerAssignments_memberNumbers, range_member_numbers]
  · rw [hassign, followerAssignments_memberNumbers]
    exact member_numbers_nodup _

/-- Witness for `leader_tick_assigns_distinct_member_numbers` with two
followers. -/
theorem leader_tick_witness :
    (1 : Int) :: (leaderMonitorTick none ["b", "a"]).2.map (fun p => p.2.memberNumber)
      = (List.range ((getAll ["b", "a"]).length + 1)).map (fun k : Nat => (k : Int) + 1) :=
  (leader_tick_assigns_distinct_member_numbers none ["b", "a"]
    (by decide)).2.2.2.2.2.2.1

/-- Witness for `status_ok_iff_ping_ok` at a successful ping. -/
theorem status_ok_witness : status .ok = .ok "OK" :=
  (status_ok_iff_ping_ok.1 .ok).mpr rfl

/-- CLAIM C10.  `GetInfo` before any delivered event blocks on the channel;
while blocked it returns the first model sent on the channel; and after any
event has been delivered it returns the most recently delivered model
immediately (the listener caches it in `info` before sending), so it never
yields an absent model. -/
theorem getInfo_returns_latest_model :
    getInfo ⟨none, []⟩ = .blocked ∧
    (∀ m ms, getInfo ⟨none, m :: ms⟩ = .fromChan m) ∧
    (∀ events m, (deliverEvents (events ++ [m])).info = some m) ∧
    (∀ events m, getInfo (deliverEvents (events ++ [m])) = .immediate m) := by
  refine ⟨rfl, fun m ms => rfl, ?_, ?_⟩
  · intro events m
    simp [deliverEvents, List.foldl_append, membershipChangedListener]
  · intro events m
    simp [deliverEvents, List.foldl_append, membershipChangedListener, getInfo]

/-- Witness for `getInfo_returns_latest_model` after two delivered models. -/
theorem getInfo_latest_witness :
    getInfo (deliverEvents [⟨1, 1⟩, ⟨2, 3⟩]) = .immediate ⟨2, 3⟩ :=
  getInfo_returns_latest_model.2.2.2 [⟨1, 1⟩] ⟨2, 3⟩

end GoDcp
